import Mathlib

/-!
Shallow embedding of the Multi-Chain Liquidity Scoring Engine
(`backend/services/liquidity_service.py`, class `EnhancedLiquidityService`).

Numeric values (`reserve_in_usd`, scores, percentages) are modelled as
rationals; Python floats carry exact decimal values for every constant the
engine uses, so the arithmetic relevant to the verified claims is exact.

The asynchronous fetch layer is abstracted: the pure per-chain scoring
pipeline takes the already-fetched pool list as input, and the HTTP request
of `_make_request` is modelled against an oracle giving the response to the
i-th outbound request.
-/

set_option maxRecDepth 2000

set_option allowUnsafeReducibility true
attribute [local semireducible] Rat.add Rat.mul Rat.inv Rat.sub Rat.ofScientific

namespace StableRisk

/-- Classification result of `_classify_token`. -/
inductive TokenClass where
  | stable
  | volatile
  | unknown
deriving DecidableEq, Repr

/-- The `known_stablecoins` set from `EnhancedLiquidityService.__init__`. -/
def knownStablecoins : List String :=
  ["usdt", "usdc", "dai", "busd", "frax", "lusd", "usdd", "usdp", "tusd",
   "fei", "mim", "ust", "vai", "gusd", "husd", "usdx", "sai", "cusd",
   "dusd", "ousd", "musd", "susd", "yusd", "alusd", "usd+", "dola"]

/-- The hard-coded major-asset list in `_classify_token`. -/
def volatileMajors : List String :=
  ["eth", "weth", "btc", "wbtc", "bnb", "matic", "avax", "sol"]

/-- Character-level trim, the model of Python `str.strip()`: drop leading
and trailing whitespace. -/
def trimChars (l : List Char) : List Char :=
  ((l.dropWhile Char.isWhitespace).reverse.dropWhile Char.isWhitespace).reverse

/-- Split a character list on a separator character, the model of Python
`str.split(sep)` for a one-character separator. -/
def splitChar (sep : Char) : List Char → List (List Char)
  | [] => [[]]
  | c :: rest =>
      let r := splitChar sep rest
      if c = sep then [] :: r
      else
        match r with
        | [] => [[c]]
        | g :: gs => (c :: g) :: gs

/-- Test whether a character list ends with the two given characters. -/
def endsWith2 (l : List Char) (a b : Char) : Bool :=
  match l.reverse with
  | y :: x :: _ => x = a && y = b
  | _ => false

/-- Embedding of `_classify_token`: lower-case and trim the symbol, strip a
single leading wrapped-asset character (w, a, c or r), strip a trailing
bridged-asset suffix (".e", "_e" or "-e"), then test membership in the
stablecoin set; the volatile test uses the un-stripped lower-cased symbol. -/
def classifyToken (tok : String) : TokenClass :=
  if tok = "" then TokenClass.unknown
  else
    let tl : List Char := trimChars (tok.data.map Char.toLower)
    let c1 : List Char :=
      match tl with
      | [] => tl
      | c :: rest =>
          if c = 'w' || c = 'a' || c = 'c' || c = 'r' then rest else tl
    let clean : List Char :=
      if endsWith2 c1 '.' 'e' || endsWith2 c1 '_' 'e' || endsWith2 c1 '-' 'e' then
        c1.take (c1.length - 2)
      else c1
    if String.mk clean ∈ knownStablecoins then TokenClass.stable
    else if String.mk tl ∈ volatileMajors then TokenClass.volatile
    else TokenClass.unknown

/-- One liquidity-pool record as consumed by the engine: the display pair
name (`attributes.name`), the USD reserve (`attributes.reserve_in_usd`) and
the resolved DEX display name (`pool['dex_name']`). -/
structure Pool where
  name : String
  reserve : ℚ
  dexName : String
deriving DecidableEq, Repr

/-- Token extraction of `_analyze_pool_composition`: lower-case the pool
name, split on "/" if present, otherwise on "-" if present, trimming each
part; with no separator no tokens are produced. -/
def splitTokens (rawName : String) : List String :=
  let nm : List Char := rawName.data.map Char.toLower
  if nm.contains '/' then
    (splitChar '/' nm).map fun t => String.mk (trimChars t)
  else if nm.contains '-' then
    (splitChar '-' nm).map fun t => String.mk (trimChars t)
  else []

/-- Total value locked: the sum of `reserve_in_usd` over the pool list. -/
def tvlOf (pools : List Pool) : ℚ :=
  (pools.map fun p => p.reserve).sum

/-- The `PoolComposition` model record. -/
structure PoolComposition where
  stable_stable_percent : ℚ
  volatile_stable_percent : ℚ
  unknown_percent : ℚ
  stable_tokens : List String
  volatile_tokens : List String
deriving DecidableEq, Repr

/-- Set-like insertion used for the stable/volatile token sets. -/
def insertNew (s : String) (l : List String) : List String :=
  if s ∈ l then l else l ++ [s]

/-- Accumulator of the `_analyze_pool_composition` loop. -/
structure CompAcc where
  total : ℚ
  ss : ℚ
  vs : ℚ
  unk : ℚ
  stabs : List String
  vols : List String
deriving DecidableEq, Repr

/-- Token-set update for one classified token symbol. -/
def addTok (c : TokenClass) (t : String) (stabs vols : List String) :
    List String × List String :=
  match c with
  | TokenClass.stable => (insertNew t stabs, vols)
  | TokenClass.volatile => (stabs, insertNew t vols)
  | TokenClass.unknown => (stabs, vols)

/-- One iteration of the `_analyze_pool_composition` loop: add the pool
liquidity to the running total and to exactly one of the three buckets
according to the classification of the first two extracted token symbols. -/
def compStep (a : CompAcc) (p : Pool) : CompAcc :=
  match splitTokens p.name with
  | t1 :: t2 :: _ =>
      let sv1 := addTok (classifyToken t1) t1 a.stabs a.vols
      let sv2 := addTok (classifyToken t2) t2 sv1.1 sv1.2
      if classifyToken t1 = TokenClass.stable ∧
          classifyToken t2 = TokenClass.stable then
        { total := a.total + p.reserve, ss := a.ss + p.reserve, vs := a.vs,
          unk := a.unk, stabs := sv2.1, vols := sv2.2 }
      else if (classifyToken t1 = TokenClass.stable ∧
            classifyToken t2 = TokenClass.volatile) ∨
          (classifyToken t1 = TokenClass.volatile ∧
            classifyToken t2 = TokenClass.stable) then
        { total := a.total + p.reserve, ss := a.ss, vs := a.vs + p.reserve,
          unk := a.unk, stabs := sv2.1, vols := sv2.2 }
      else
        { total := a.total + p.reserve, ss := a.ss, vs := a.vs,
          unk := a.unk + p.reserve, stabs := sv2.1, vols := sv2.2 }
  | _ =>
      { a with total := a.total + p.reserve, unk := a.unk + p.reserve }

/-- Embedding of `_analyze_pool_composition`. -/
def analyzePoolComposition (pools : List Pool) : PoolComposition :=
  let a := pools.foldl compStep ⟨0, 0, 0, 0, [], []⟩
  if a.total = 0 then
    { stable_stable_percent := 0, volatile_stable_percent := 0,
      unknown_percent := 100, stable_tokens := [], volatile_tokens := [] }
  else
    { stable_stable_percent := a.ss / a.total * 100,
      volatile_stable_percent := a.vs / a.total * 100,
      unknown_percent := a.unk / a.total * 100,
      stable_tokens := a.stabs, volatile_tokens := a.vols }

/-- One entry of the `top_dexs` list. -/
structure TopDex where
  name : String
  liquidity_usd : ℚ
  percent : ℚ
deriving DecidableEq, Repr

/-- The `DEXAnalysis` model record. -/
structure DEXAnalysis where
  total_dex_count : Nat
  dexs_over_100k : Nat
  largest_dex_percent : ℚ
  top_dexs : List TopDex
  dex_names : List String
deriving DecidableEq, Repr

/-- Add a liquidity amount under a DEX key, preserving Python dict insertion
order: an existing key is updated in place, a new key is appended. -/
def addToAssoc (l : List (String × ℚ)) (k : String) (v : ℚ) :
    List (String × ℚ) :=
  match l with
  | [] => [(k, v)]
  | (k1, v1) :: rest =>
      if k1 = k then (k1, v1 + v) :: rest else (k1, v1) :: addToAssoc rest k v

/-- The `dex_liquidity` dictionary of `_analyze_dex_diversity`, as an
insertion-ordered association list. -/
def dexLiquidity (pools : List Pool) : List (String × ℚ) :=
  pools.foldl (fun acc p => addToAssoc acc p.dexName p.reserve) []

/-- Python `max(dex_liquidity.values()) if dex_liquidity else 0`. -/
def maxVal : List (String × ℚ) → ℚ
  | [] => 0
  | kv :: rest => rest.foldl (fun m x => max m x.2) kv.2

/-- Insertion step of a stable descending sort by a rational key: the new
element is placed before the first element with a smaller-or-equal key, so
an earlier element wins ties against later ones. -/
def insByKey {α : Type} (key : α → ℚ) (x : α) : List α → List α
  | [] => [x]
  | y :: ys => if key y ≤ key x then x :: y :: ys else y :: insByKey key x ys

/-- Stable descending sort by a rational key; this is the unique stable
descending order, hence the order produced by Python `sorted(..., key=...,
reverse=True)` and by `list.sort(key=..., reverse=True)`. -/
def sortByKeyDesc {α : Type} (key : α → ℚ) : List α → List α
  | [] => []
  | x :: xs => insByKey key x (sortByKeyDesc key xs)

/-- Embedding of `_analyze_dex_diversity`. -/
def analyzeDexDiversity (pools : List Pool) : DEXAnalysis :=
  let dl := dexLiquidity pools
  let total := tvlOf pools
  let over := (dl.filter fun kv => decide (100000 ≤ kv.2)).length
  let largest := maxVal dl
  let sorted := sortByKeyDesc Prod.snd dl
  { total_dex_count := dl.length,
    dexs_over_100k := over,
    largest_dex_percent := if 0 < total then largest / total * 100 else 0,
    top_dexs := (sorted.take 5).map fun kv =>
      { name := kv.1, liquidity_usd := kv.2,
        percent := if 0 < total then kv.2 / total * 100 else 0 },
    dex_names := dl.map Prod.fst }

/-- One synthetic drain-event record from `_assess_risk_factors`. -/
structure DrainEvent where
  type : String
  description : String
  liquidity_usd : ℚ
deriving DecidableEq, Repr

/-- The `LiquidityRiskFactors` model record. -/
structure LiquidityRiskFactors where
  high_lp_centralization : Bool
  recent_drain_events : List DrainEvent
  flash_loan_vulnerability : Bool
  no_monitoring_controls : Bool
  concentration_risk : Bool
deriving DecidableEq, Repr

/-- Embedding of `_assess_risk_factors`. -/
def assessRiskFactors (tvl : ℚ) (dex : DEXAnalysis)
    (_comp : PoolComposition) : LiquidityRiskFactors :=
  let hlc := decide (90 ≤ dex.largest_dex_percent)
  let conc := decide (80 ≤ dex.largest_dex_percent) || decide (dex.dexs_over_100k ≤ 1)
  { high_lp_centralization := hlc,
    recent_drain_events :=
      if tvl < 50000 then
        [{ type := "potential_drain",
           description := "Very low liquidity detected", liquidity_usd := tvl }]
      else [],
    flash_loan_vulnerability := decide (tvl < 1000000) && conc,
    no_monitoring_controls := decide (tvl < 100000),
    concentration_risk := conc }

/-- Embedding of `_calculate_base_score`: the TVL tier step function. -/
def calculateBaseScore (tvl : ℚ) : ℚ :=
  if 100000000 ≤ tvl then 9.5
  else if 30000000 ≤ tvl then 7.5
  else if 10000000 ≤ tvl then 5.5
  else if 1000000 ≤ tvl then 3.5
  else if 0 < tvl then 1.5
  else 0

/-- Embedding of `_calculate_adjustments`: the conditionally built
adjustment dictionary, as an insertion-ordered association list. -/
def calculateAdjustments (dex : DEXAnalysis) (comp : PoolComposition)
    (rf : LiquidityRiskFactors) : List (String × ℚ) :=
  (if 3 ≤ dex.dexs_over_100k then [("dex_diversity_bonus", (1 : ℚ))] else []) ++
  (if 90 ≤ dex.largest_dex_percent then [("liquidity_centralization", (-2 : ℚ))] else []) ++
  (if 50 < comp.volatile_stable_percent then [("volatile_pairing_risk", (-1 : ℚ))] else []) ++
  (if rf.high_lp_centralization then [("lp_centralization", (-2 : ℚ))] else []) ++
  (if rf.recent_drain_events ≠ [] then [("drain_event_history", (-3 : ℚ))] else []) ++
  (if rf.flash_loan_vulnerability then [("flash_loan_risk", (-2 : ℚ))] else []) ++
  (if rf.no_monitoring_controls then [("no_monitoring", (-1 : ℚ))] else [])

/-- Sum of the adjustment values (`sum(adjustments.values())`). -/
def sumAdj (l : List (String × ℚ)) : ℚ :=
  (l.map Prod.snd).sum

/-- Model of Python `str.title()` for the single-word network identifiers
the engine passes in: upper-case the first character. -/
def capitalizeStr (s : String) : String :=
  match s.data with
  | [] => s
  | c :: rest => String.mk (c.toUpper :: rest)

/-- Embedding of `_determine_risk_level_and_color`. -/
def determineRiskLevelAndColor (s : ℚ) : String × String :=
  if 7 ≤ s then ("excellent", "green")
  else if 5 ≤ s then ("strong", "green")
  else if 4 ≤ s then ("moderate", "orange")
  else if 2 ≤ s then ("high", "orange")
  else ("critical", "red")

/-- The `ChainLiquidityScore` model record (timestamp omitted). -/
structure ChainLiquidityScore where
  chain_id : String
  chain_name : String
  tvl_usd : ℚ
  base_score : ℚ
  adjustments : List (String × ℚ)
  final_score : ℚ
  risk_level : String
  risk_color : String
  critical_warning : Bool
  dex_analysis : DEXAnalysis
  pool_composition : PoolComposition
  risk_factors : LiquidityRiskFactors
  data_confidence : ℚ
deriving DecidableEq, Repr

/-- The score record built by `analyze_chain_liquidity` once the pool list
has passed the non-empty and non-zero-liquidity guards. -/
def chainScoreOf (network : String) (pools : List Pool) : ChainLiquidityScore :=
  let tvl := tvlOf pools
  let comp := analyzePoolComposition pools
  let dex := analyzeDexDiversity pools
  let rf := assessRiskFactors tvl dex comp
  let base := calculateBaseScore tvl
  let adjs := calculateAdjustments dex comp rf
  let final := max 0 (min 10 (base + sumAdj adjs))
  { chain_id := network,
    chain_name := capitalizeStr network,
    tvl_usd := tvl,
    base_score := base,
    adjustments := adjs,
    final_score := final,
    risk_level := (determineRiskLevelAndColor final).1,
    risk_color := (determineRiskLevelAndColor final).2,
    critical_warning := decide (tvl < 100000),
    dex_analysis := dex,
    pool_composition := comp,
    risk_factors := rf,
    data_confidence := min 1 ((pools.length : ℚ) / 10 * (tvl / 1000000)) }

/-- Embedding of `analyze_chain_liquidity` given the fetched pool list: an
empty pool list or zero summed liquidity yields no score. -/
def analyzeChainLiquidity (network : String) (pools : List Pool) :
    Option ChainLiquidityScore :=
  if pools = [] then none
  else if tvlOf pools = 0 then none
  else some (chainScoreOf network pools)

/-- The `EnhancedLiquidityData` model record (timestamp omitted). -/
structure EnhancedLiquidityData where
  total_liquidity_usd : ℚ
  global_risk_score : ℚ
  global_risk_level : String
  chain_scores : List ChainLiquidityScore
  chain_count : Nat
  chains_with_critical_risk : Nat
  avg_score_per_chain : ℚ
  score_variance : ℚ
  has_critical_warnings : Bool
  concentration_risk : Bool
  diversification_good : Bool
  data_sources : List String
  cache_status : String
deriving DecidableEq, Repr

/-- Sample variance as computed by Python `statistics.variance`: squared
deviations from the mean divided by n - 1. -/
def sampleVariance (l : List ℚ) : ℚ :=
  let n : ℚ := l.length
  let m := l.sum / n
  ((l.map fun x => (x - m) * (x - m)).sum) / (n - 1)

/-- The global record `get_comprehensive_liquidity_analysis` assembles from
a non-empty list of collected per-chain scores: sort descending by TVL,
TVL-weight the final scores, and derive the summary metrics. -/
def buildEnhanced (scores : List ChainLiquidityScore) : EnhancedLiquidityData :=
  let sorted := sortByKeyDesc (fun s => s.tvl_usd) scores
  let total := (sorted.map fun s => s.tvl_usd).sum
  let global :=
    if 0 < total then
      (sorted.map fun s => s.final_score * (s.tvl_usd / total)).sum
    else 0
  let n := sorted.length
  let avg := (sorted.map fun s => s.final_score).sum / (n : ℚ)
  { total_liquidity_usd := total,
    global_risk_score := global,
    global_risk_level := (determineRiskLevelAndColor global).1,
    chain_scores := sorted,
    chain_count := n,
    chains_with_critical_risk := (sorted.filter fun s => s.critical_warning).length,
    avg_score_per_chain := avg,
    score_variance :=
      if 1 < n then sampleVariance (sorted.map fun s => s.final_score) else 0,
    has_critical_warnings := sorted.any fun s => s.critical_warning,
    concentration_risk := sorted.any fun s => s.risk_factors.concentration_risk,
    diversification_good := decide (3 ≤ n) && decide ((5 : ℚ) ≤ avg),
    data_sources := ["GeckoTerminal", "DeFiLlama"],
    cache_status := "computed" }

/-- Aggregation tail of `get_comprehensive_liquidity_analysis`: with no
collected per-chain score the whole analysis yields nothing. -/
def aggregateScores (scores : List ChainLiquidityScore) :
    Option EnhancedLiquidityData :=
  if scores = [] then none else some (buildEnhanced scores)

/-- Outcome of one per-network scoring task as the aggregator sees it: the
fetch either raised (modelled by an error value, caught and excluded by the
`isinstance` filter over `asyncio.gather` results) or delivered a pool list
that `analyze_chain_liquidity` scores. -/
def chainOutcomeScore (x : String × Except String (List Pool)) :
    Option ChainLiquidityScore :=
  match x.2 with
  | Except.error _ => none
  | Except.ok pools => analyzeChainLiquidity x.1 pools

/-- The `chain_scores` collection loop: keep, in input order, each result
that is an actual score; exceptions and absent scores are dropped. -/
def collectScores (netResults : List (String × Except String (List Pool))) :
    List ChainLiquidityScore :=
  netResults.filterMap chainOutcomeScore

/-- Embedding of `get_comprehensive_liquidity_analysis` downstream of
address resolution: the input associates each resolved network with the
outcome of its fetch (pool list, or a raised error). -/
def getComprehensiveLiquidityAnalysis
    (netResults : List (String × Except String (List Pool))) :
    Option EnhancedLiquidityData :=
  aggregateScores (collectScores netResults)

/-- Response the external pool-indexing service gives to one HTTP request,
as observed by `_make_request`. -/
inductive HttpResponse (α : Type) where
  | success (body : α)
  | rateLimited
  | serverError (code : Nat)
  | transportFailure
deriving DecidableEq, Repr

/-- Observable outcome of one `_make_request` call: the returned value, the
number of outbound requests issued, and whether the rate-limit backoff
sleep was performed. -/
structure RequestOutcome (α : Type) where
  result : Option α
  requestsMade : Nat
  sleptForBackoff : Bool
deriving DecidableEq, Repr

/-- Embedding of `_make_request` against an oracle giving the response to
the i-th outbound request: one request is issued; a 200 returns the parsed
body, a 429 sleeps five seconds and returns nothing, any other status or a
transport exception returns nothing. -/
def makeRequestModel {α : Type} (respond : Nat → HttpResponse α) :
    RequestOutcome α :=
  match respond 0 with
  | HttpResponse.success b => { result := some b, requestsMade := 1, sleptForBackoff := false }
  | HttpResponse.rateLimited => { result := none, requestsMade := 1, sleptForBackoff := true }
  | HttpResponse.serverError _ => { result := none, requestsMade := 1, sleptForBackoff := false }
  | HttpResponse.transportFailure => { result := none, requestsMade := 1, sleptForBackoff := false }

/-- Cache-miss path of `get_geckoterminal_pools`: a request returning no
usable body degrades to the empty pool list; the happy path returns the
parsed pools. -/
def getPoolsModel (respond : Nat → HttpResponse (List Pool)) : List Pool :=
  match (makeRequestModel respond).result with
  | some pools => pools
  | none => []

/-- Declarative per-pool test for the stable-stable bucket, matching the
branch condition of the composition loop. -/
def ssPool (p : Pool) : Bool :=
  match splitTokens p.name with
  | t1 :: t2 :: _ =>
      decide (classifyToken t1 = TokenClass.stable ∧
        classifyToken t2 = TokenClass.stable)
  | _ => false

/-- Declarative per-pool test for the volatile-stable bucket, matching the
branch condition of the composition loop: exactly one token classified
stable and the other classified volatile. -/
def vsPool (p : Pool) : Bool :=
  match splitTokens p.name with
  | t1 :: t2 :: _ =>
      decide ((classifyToken t1 = TokenClass.stable ∧
          classifyToken t2 = TokenClass.volatile) ∨
        (classifyToken t1 = TokenClass.volatile ∧
          classifyToken t2 = TokenClass.stable))
  | _ => false

/-- Declarative per-pool test for the unknown bucket: everything that is in
neither of the other two buckets, including unparsable names. -/
def unkPool (p : Pool) : Bool :=
  !(ssPool p || vsPool p)

/-- Liquidity held by the pools satisfying a bucket test. -/
def bucketSum (f : Pool → Bool) (pools : List Pool) : ℚ :=
  (pools.map fun p => if f p then p.reserve else 0).sum

/-- Order of first appearance of the values of a list, as a Python dict
records its keys. -/
def firstOccurrences (l : List String) : List String :=
  l.foldl (fun acc s => if s ∈ acc then acc else acc ++ [s]) []

/-- Fetch oracle whose first response is a 429 and whose later responses
succeed: the input exhibiting the missing retry. -/
def oracle429 : Nat → HttpResponse (List Pool) :=
  fun n =>
    if n = 0 then HttpResponse.rateLimited
    else HttpResponse.success [{ name := "usdt/weth", reserve := 500000, dexName := "Uniswap" }]

/-- Pool list used to instantiate universally quantified claims. -/
def wPools : List Pool :=
  [{ name := "usdt/weth", reserve := 500000, dexName := "Uniswap" }]

/-- Per-network fetch outcomes used to instantiate aggregator claims. -/
def wNrs : List (String × Except String (List Pool)) :=
  [("eth", Except.ok wPools)]

/-- A bare per-chain score record carrying only the fields the aggregation
step reads, used to feed the aggregator directly. -/
def plainScore (tvl fs : ℚ) : ChainLiquidityScore :=
  { chain_id := "net", chain_name := "Net", tvl_usd := tvl, base_score := fs,
    adjustments := [], final_score := fs, risk_level := "", risk_color := "",
    critical_warning := false,
    dex_analysis := ⟨0, 0, 0, [], []⟩,
    pool_composition := ⟨0, 0, 100, [], []⟩,
    risk_factors := ⟨false, [], false, false, false⟩,
    data_confidence := 0 }

section CompositionLemmas

theorem compStep_total (a : CompAcc) (p : Pool) :
    (compStep a p).total = a.total + p.reserve := by
  unfold compStep
  cases h : splitTokens p.name with
  | nil => rfl
  | cons t1 ts =>
    cases ts with
    | nil => rfl
    | cons t2 rest =>
      dsimp only
      split_ifs <;> rfl

theorem compStep_ss (a : CompAcc) (p : Pool) :
    (compStep a p).ss = a.ss + (if ssPool p then p.reserve else 0) := by
  unfold compStep ssPool
  cases h : splitTokens p.name with
  | nil => simp
  | cons t1 ts =>
    cases ts with
    | nil => simp
    | cons t2 rest =>
      cases hc1 : classifyToken t1 <;> cases hc2 : classifyToken t2 <;> simp [hc1, hc2]

theorem compStep_vs (a : CompAcc) (p : Pool) :
    (compStep a p).vs = a.vs + (if vsPool p then p.reserve else 0) := by
  unfold compStep vsPool
  cases h : splitTokens p.name with
  | nil => simp
  | cons t1 ts =>
    cases ts with
    | nil => simp
    | cons t2 rest =>
      cases hc1 : classifyToken t1 <;> cases hc2 : classifyToken t2 <;> simp [hc1, hc2]

theorem compStep_unk (a : CompAcc) (p : Pool) :
    (compStep a p).unk = a.unk + (if unkPool p then p.reserve else 0) := by
  unfold compStep unkPool ssPool vsPool
  cases h : splitTokens p.name with
  | nil => simp
  | cons t1 ts =>
    cases ts with
    | nil => simp
    | cons t2 rest =>
      cases hc1 : classifyToken t1 <;> cases hc2 : classifyToken t2 <;> simp [hc1, hc2]

theorem compFold_total (pools : List Pool) (a : CompAcc) :
    (pools.foldl compStep a).total = a.total + tvlOf pools := by
  induction pools generalizing a with
  | nil => simp [tvlOf]
  | cons p ps ih =>
    rw [List.foldl_cons, ih, compStep_total]
    simp [tvlOf]
    ring

theorem compFold_ss (pools : List Pool) (a : CompAcc) :
    (pools.foldl compStep a).ss = a.ss + bucketSum ssPool pools := by
  induction pools generalizing a with
  | nil => simp [bucketSum]
  | cons p ps ih =>
    rw [List.foldl_cons, ih, compStep_ss]
    simp [bucketSum]
    ring

theorem compFold_vs (pools : List Pool) (a : CompAcc) :
    (pools.foldl compStep a).vs = a.vs + bucketSum vsPool pools := by
  induction pools generalizing a with
  | nil => simp [bucketSum]
  | cons p ps ih =>
    rw [List.foldl_cons, ih, compStep_vs]
    simp [bucketSum]
    ring

theorem compFold_unk (pools : List Pool) (a : CompAcc) :
    (pools.foldl compStep a).unk = a.unk + bucketSum unkPool pools := by
  induction pools generalizing a with
  | nil => simp [bucketSum]
  | cons p ps ih =>
    rw [List.foldl_cons, ih, compStep_unk]
    simp [bucketSum]
    ring

theorem ssPool_vsPool_not_both (p : Pool) :
    ¬(ssPool p = true ∧ vsPool p = true) := by
  unfold ssPool vsPool
  cases h : splitTokens p.name with
  | nil => simp
  | cons t1 ts =>
    cases ts with
    | nil => simp
    | cons t2 rest =>
      cases hc1 : classifyToken t1 <;> cases hc2 : classifyToken t2 <;> simp [hc1, hc2]

theorem bucketSum_partition (pools : List Pool) :
    bucketSum ssPool pools + bucketSum vsPool pools + bucketSum unkPool pools =
      tvlOf pools := by
  induction pools with
  | nil => simp [bucketSum, tvlOf]
  | cons p ps ih =>
    simp only [bucketSum, tvlOf, List.map_cons, List.sum_cons] at ih ⊢
    have hp : (if ssPool p then p.reserve else 0) +
        (if vsPool p then p.reserve else 0) +
        (if unkPool p then p.reserve else 0) = p.reserve := by
      have hnb := ssPool_vsPool_not_both p
      unfold unkPool
      cases hss : ssPool p <;> cases hvs : vsPool p <;> simp_all
    linarith

theorem compAcc_total_eq (pools : List Pool) :
    (pools.foldl compStep ⟨0, 0, 0, 0, [], []⟩).total = tvlOf pools := by
  rw [compFold_total]
  norm_num

end CompositionLemmas

section ChainLemmas

theorem analyzeChain_eq_some {n : String} {ps : List Pool}
    {s : ChainLiquidityScore} :
    analyzeChainLiquidity n ps = some s ↔
      ps ≠ [] ∧ tvlOf ps ≠ 0 ∧ s = chainScoreOf n ps := by
  unfold analyzeChainLiquidity
  split_ifs with h1 h2 <;> simp_all [eq_comm]

theorem chainScoreOf_tvl (n : String) (ps : List Pool) :
    (chainScoreOf n ps).tvl_usd = tvlOf ps := rfl

theorem chainScoreOf_base (n : String) (ps : List Pool) :
    (chainScoreOf n ps).base_score = calculateBaseScore (tvlOf ps) := rfl

theorem chainScoreOf_final (n : String) (ps : List Pool) :
    (chainScoreOf n ps).final_score =
      max 0 (min 10 ((chainScoreOf n ps).base_score +
        sumAdj (chainScoreOf n ps).adjustments)) := rfl

theorem chainScoreOf_dex (n : String) (ps : List Pool) :
    (chainScoreOf n ps).dex_analysis = analyzeDexDiversity ps := rfl

theorem chainScoreOf_adjustments (n : String) (ps : List Pool) :
    (chainScoreOf n ps).adjustments =
      calculateAdjustments (analyzeDexDiversity ps) (analyzePoolComposition ps)
        (assessRiskFactors (tvlOf ps) (analyzeDexDiversity ps)
          (analyzePoolComposition ps)) := rfl

theorem chainScoreOf_final_eq (n : String) (ps : List Pool) :
    (chainScoreOf n ps).final_score =
      max 0 (min 10 (calculateBaseScore (tvlOf ps) +
        sumAdj (calculateAdjustments (analyzeDexDiversity ps)
          (analyzePoolComposition ps)
          (assessRiskFactors (tvlOf ps) (analyzeDexDiversity ps)
            (analyzePoolComposition ps))))) := rfl

theorem chainScoreOf_level (n : String) (ps : List Pool) :
    (chainScoreOf n ps).risk_level =
      (determineRiskLevelAndColor (chainScoreOf n ps).final_score).1 := rfl

theorem chainScoreOf_color (n : String) (ps : List Pool) :
    (chainScoreOf n ps).risk_color =
      (determineRiskLevelAndColor (chainScoreOf n ps).final_score).2 := rfl

theorem chainScoreOf_critical (n : String) (ps : List Pool) :
    (chainScoreOf n ps).critical_warning = decide (tvlOf ps < 100000) := rfl

theorem chainScoreOf_final_bounds (n : String) (ps : List Pool) :
    0 ≤ (chainScoreOf n ps).final_score ∧
      (chainScoreOf n ps).final_score ≤ 10 := by
  rw [chainScoreOf_final]
  constructor
  · exact le_max_left 0 _
  · exact max_le (by norm_num) (min_le_left 10 _)

theorem tvlOf_nonneg {ps : List Pool} (h : ∀ p ∈ ps, 0 ≤ p.reserve) :
    0 ≤ tvlOf ps := by
  apply List.sum_nonneg
  intro x hx
  rcases List.mem_map.mp hx with ⟨p, hp, rfl⟩
  exact h p hp

end ChainLemmas

/-- C4: the base score is the TVL tier step function with inclusive lower
bounds (≥100M → 9.5, ≥30M → 7.5, ≥10M → 5.5, ≥1M → 3.5, >0 → 1.5,
0 → 0.0), and it is monotone in TVL. -/
theorem claim_C4_base_score_tiers :
    (∀ t : ℚ, 100000000 ≤ t → calculateBaseScore t = 9.5) ∧
    (∀ t : ℚ, 30000000 ≤ t → t < 100000000 → calculateBaseScore t = 7.5) ∧
    (∀ t : ℚ, 10000000 ≤ t → t < 30000000 → calculateBaseScore t = 5.5) ∧
    (∀ t : ℚ, 1000000 ≤ t → t < 10000000 → calculateBaseScore t = 3.5) ∧
    (∀ t : ℚ, 0 < t → t < 1000000 → calculateBaseScore t = 1.5) ∧
    calculateBaseScore 0 = 0 ∧
    (∀ a b : ℚ, a ≤ b → calculateBaseScore a ≤ calculateBaseScore b) := by
  refine ⟨?_, ?_, ?_, ?_, ?_, ?_, ?_⟩
  · intro t h1
    unfold calculateBaseScore
    rw [if_pos h1]
  · intro t h1 h2
    unfold calculateBaseScore
    split_ifs <;> first | rfl | linarith
  · intro t h1 h2
    unfold calculateBaseScore
    split_ifs <;> first | rfl | linarith
  · intro t h1 h2
    unfold calculateBaseScore
    split_ifs <;> first | rfl | linarith
  · intro t h1 h2
    unfold calculateBaseScore
    split_ifs <;> first | rfl | linarith
  · norm_num [calculateBaseScore]
  · intro a b hab
    unfold calculateBaseScore
    split_ifs <;> push_neg at * <;> linarith

/-- C4 witness: each tier and monotonicity at concrete TVL values. -/
theorem claim_C4_base_score_tiers_witness :
    calculateBaseScore 150000000 = 9.5 ∧
    calculateBaseScore 40000000 = 7.5 ∧
    calculateBaseScore 20000000 = 5.5 ∧
    calculateBaseScore 2000000 = 3.5 ∧
    calculateBaseScore 500 = 1.5 ∧
    calculateBaseScore 0 = 0 ∧
    calculateBaseScore 40000000 ≤ calculateBaseScore 150000000 :=
  ⟨claim_C4_base_score_tiers.1 150000000 (by norm_num),
   claim_C4_base_score_tiers.2.1 40000000 (by norm_num) (by norm_num),
   claim_C4_base_score_tiers.2.2.1 20000000 (by norm_num) (by norm_num),
   claim_C4_base_score_tiers.2.2.2.1 2000000 (by norm_num) (by norm_num),
   claim_C4_base_score_tiers.2.2.2.2.1 500 (by norm_num) (by norm_num),
   claim_C4_base_score_tiers.2.2.2.2.2.1,
   claim_C4_base_score_tiers.2.2.2.2.2.2 40000000 150000000 (by norm_num)⟩

/-- Scenario B pool list: one pool of $40,000 on a single exchange, with a
pair name carrying no separator so composition classifies it unknown. -/
def sbPools : List Pool :=
  [{ name := "mystery", reserve := 40000, dexName := "Uniswap V2" }]

/-- C5: for the Scenario B network input (TVL $40,000 held entirely by one
exchange, largest-exchange share 100%), the scorer yields base score 1.5,
exactly the five penalties -2 (liquidity centralization), -2 (LP
centralization), -3 (drain-event suspicion), -2 (flash-loan vulnerability)
and -1 (no monitoring), raw total -8.5, clamped final score 0.0, risk level
"critical" with color "red", and a critical warning. -/
theorem claim_C5_scenario_b :
    analyzeChainLiquidity "eth" sbPools = some (chainScoreOf "eth" sbPools) ∧
    (chainScoreOf "eth" sbPools).tvl_usd = 40000 ∧
    (chainScoreOf "eth" sbPools).dex_analysis.largest_dex_percent = 100 ∧
    (chainScoreOf "eth" sbPools).base_score = 1.5 ∧
    (chainScoreOf "eth" sbPools).adjustments =
      [("liquidity_centralization", -2), ("lp_centralization", -2),
       ("drain_event_history", -3), ("flash_loan_risk", -2),
       ("no_monitoring", -1)] ∧
    (chainScoreOf "eth" sbPools).base_score +
      sumAdj (chainScoreOf "eth" sbPools).adjustments = -8.5 ∧
    (chainScoreOf "eth" sbPools).final_score = 0 ∧
    (chainScoreOf "eth" sbPools).risk_level = "critical" ∧
    (chainScoreOf "eth" sbPools).risk_color = "red" ∧
    (chainScoreOf "eth" sbPools).critical_warning = true := by
  refine ⟨?_, ?_, ?_, ?_, ?_, ?_, ?_, ?_, ?_, ?_⟩
  · unfold analyzeChainLiquidity
    rw [if_neg (by decide),
      if_neg (by decide)]
  · rw [chainScoreOf_tvl]
    decide
  · rw [chainScoreOf_dex]
    decide
  · rw [chainScoreOf_base]
    decide
  · rw [chainScoreOf_adjustments]
    decide
  · rw [chainScoreOf_base, chainScoreOf_adjustments]
    decide
  · rw [chainScoreOf_final_eq]
    decide
  · rw [chainScoreOf_level, chainScoreOf_final_eq]
    decide
  · rw [chainScoreOf_color, chainScoreOf_final_eq]
    decide
  · rw [chainScoreOf_critical]
    decide

/-- C2 counterexample: the pool "usdt/shib" parses into one stable token
(usdt) and one non-stable, non-volatile token (shib); the claim puts its
full liquidity in the volatile-stable bucket, but the code puts it in the
unknown bucket. -/
theorem claim_C2_counterexample :
    splitTokens "usdt/shib" = ["usdt", "shib"] ∧
    classifyToken "usdt" = TokenClass.stable ∧
    classifyToken "shib" = TokenClass.unknown ∧
    (analyzePoolComposition
      [{ name := "usdt/shib", reserve := 100, dexName := "d" }]).volatile_stable_percent = 0 ∧
    (analyzePoolComposition
      [{ name := "usdt/shib", reserve := 100, dexName := "d" }]).unknown_percent = 100 ∧
    ¬(analyzePoolComposition
      [{ name := "usdt/shib", reserve := 100, dexName := "d" }]).volatile_stable_percent = 100 := by
  decide

/-- C2 (amended): a pool goes to the volatile-stable bucket exactly when one
token is classified stable and the other is classified volatile; a pair of
one stable and one unknown token goes to the unknown bucket, as does
everything that is not both-stable, including unparsable names. For any pool
list with non-zero total liquidity the three percentages equal the
corresponding bucket liquidity shares. -/
theorem claim_C2_amended (pools : List Pool) (h : tvlOf pools ≠ 0) :
    (analyzePoolComposition pools).stable_stable_percent =
      bucketSum ssPool pools / tvlOf pools * 100 ∧
    (analyzePoolComposition pools).volatile_stable_percent =
      bucketSum vsPool pools / tvlOf pools * 100 ∧
    (analyzePoolComposition pools).unknown_percent =
      bucketSum unkPool pools / tvlOf pools * 100 := by
  unfold analyzePoolComposition
  have ht := compAcc_total_eq pools
  have hss : (pools.foldl compStep ⟨0, 0, 0, 0, [], []⟩).ss =
      bucketSum ssPool pools := by
    rw [compFold_ss]
    norm_num
  have hvs : (pools.foldl compStep ⟨0, 0, 0, 0, [], []⟩).vs =
      bucketSum vsPool pools := by
    rw [compFold_vs]
    norm_num
  have hunk : (pools.foldl compStep ⟨0, 0, 0, 0, [], []⟩).unk =
      bucketSum unkPool pools := by
    rw [compFold_unk]
    norm_num
  rw [if_neg (by rw [ht]; exact h)]
  refine ⟨?_, ?_, ?_⟩
  · dsimp only
    rw [hss, ht]
  · dsimp only
    rw [hvs, ht]
  · dsimp only
    rw [hunk, ht]

/-- C2 witness: the amended bucket characterization evaluated on the
stable-unknown pool. -/
theorem claim_C2_amended_witness :
    (analyzePoolComposition
        [{ name := "usdt/shib", reserve := 100, dexName := "d" }]).stable_stable_percent =
      bucketSum ssPool [{ name := "usdt/shib", reserve := 100, dexName := "d" }] /
        tvlOf [{ name := "usdt/shib", reserve := 100, dexName := "d" }] * 100 ∧
    (analyzePoolComposition
        [{ name := "usdt/shib", reserve := 100, dexName := "d" }]).volatile_stable_percent =
      bucketSum vsPool [{ name := "usdt/shib", reserve := 100, dexName := "d" }] /
        tvlOf [{ name := "usdt/shib", reserve := 100, dexName := "d" }] * 100 ∧
    (analyzePoolComposition
        [{ name := "usdt/shib", reserve := 100, dexName := "d" }]).unknown_percent =
      bucketSum unkPool [{ name := "usdt/shib", reserve := 100, dexName := "d" }] /
        tvlOf [{ name := "usdt/shib", reserve := 100, dexName := "d" }] * 100 :=
  claim_C2_amended [{ name := "usdt/shib", reserve := 100, dexName := "d" }] (by decide)

/-- C6: the three composition percentages sum to exactly 100 whenever total
liquidity is positive, and are exactly 0/0/100 when total liquidity is 0. -/
theorem claim_C6_composition_percentages (pools : List Pool) :
    (0 < tvlOf pools →
      (analyzePoolComposition pools).stable_stable_percent +
        (analyzePoolComposition pools).volatile_stable_percent +
        (analyzePoolComposition pools).unknown_percent = 100) ∧
    (tvlOf pools = 0 →
      (analyzePoolComposition pools).stable_stable_percent = 0 ∧
        (analyzePoolComposition pools).volatile_stable_percent = 0 ∧
        (analyzePoolComposition pools).unknown_percent = 100) := by
  constructor
  · intro hpos
    unfold analyzePoolComposition
    have ht := compAcc_total_eq pools
    have hpart := bucketSum_partition pools
    have hss : (pools.foldl compStep ⟨0, 0, 0, 0, [], []⟩).ss =
        bucketSum ssPool pools := by
      rw [compFold_ss]
      norm_num
    have hvs : (pools.foldl compStep ⟨0, 0, 0, 0, [], []⟩).vs =
        bucketSum vsPool pools := by
      rw [compFold_vs]
      norm_num
    have hunk : (pools.foldl compStep ⟨0, 0, 0, 0, [], []⟩).unk =
        bucketSum unkPool pools := by
      rw [compFold_unk]
      norm_num
    rw [if_neg (by rw [ht]; exact ne_of_gt hpos)]
    dsimp only
    rw [hss, hvs, hunk, ht]
    have hTne : tvlOf pools ≠ 0 := ne_of_gt hpos
    field_simp
    linarith
  · intro hzero
    unfold analyzePoolComposition
    have ht := compAcc_total_eq pools
    rw [if_pos (by rw [ht]; exact hzero)]
    exact ⟨rfl, rfl, rfl⟩

/-- C6 witness: the percentage invariant evaluated on a mixed pool list and
on the empty pool list. -/
theorem claim_C6_composition_percentages_witness :
    ((analyzePoolComposition
        [{ name := "usdt/usdc", reserve := 60, dexName := "d" },
         { name := "zzz", reserve := 40, dexName := "e" }]).stable_stable_percent +
      (analyzePoolComposition
        [{ name := "usdt/usdc", reserve := 60, dexName := "d" },
         { name := "zzz", reserve := 40, dexName := "e" }]).volatile_stable_percent +
      (analyzePoolComposition
        [{ name := "usdt/usdc", reserve := 60, dexName := "d" },
         { name := "zzz", reserve := 40, dexName := "e" }]).unknown_percent = 100) ∧
    ((analyzePoolComposition ([] : List Pool)).stable_stable_percent = 0 ∧
      (analyzePoolComposition ([] : List Pool)).volatile_stable_percent = 0 ∧
      (analyzePoolComposition ([] : List Pool)).unknown_percent = 100) :=
  ⟨(claim_C6_composition_percentages
      [{ name := "usdt/usdc", reserve := 60, dexName := "d" },
       { name := "zzz", reserve := 40, dexName := "e" }]).1 (by decide),
   (claim_C6_composition_percentages ([] : List Pool)).2 (by decide)⟩

/-- C10: a non-empty pool list whose reserves are all zero yields no score,
and every score returned for pools with non-negative reserves has positive
TVL and base score at least 1.5, so the 0.0 base tier is unreachable. -/
theorem claim_C10_zero_tvl_guard :
    (∀ (n : String) (ps : List Pool), ps ≠ [] → (∀ p ∈ ps, p.reserve = 0) →
      analyzeChainLiquidity n ps = none) ∧
    (∀ (n : String) (ps : List Pool) (s : ChainLiquidityScore),
      (∀ p ∈ ps, 0 ≤ p.reserve) → analyzeChainLiquidity n ps = some s →
      0 < s.tvl_usd ∧ (1.5 : ℚ) ≤ s.base_score) := by
  constructor
  · intro n ps hne hz
    have htz : tvlOf ps = 0 := by
      apply List.sum_eq_zero
      intro x hx
      rcases List.mem_map.mp hx with ⟨p, hp, rfl⟩
      exact hz p hp
    unfold analyzeChainLiquidity
    rw [if_neg hne, if_pos htz]
  · intro n ps s hnn hsome
    rcases analyzeChain_eq_some.mp hsome with ⟨hne, htn, rfl⟩
    have h0 : 0 ≤ tvlOf ps := tvlOf_nonneg hnn
    have hpos : 0 < tvlOf ps := lt_of_le_of_ne h0 (Ne.symm htn)
    refine ⟨by rw [chainScoreOf_tvl]; exact hpos, ?_⟩
    rw [chainScoreOf_base]
    unfold calculateBaseScore
    split_ifs <;> push_neg at * <;> linarith

/-- C10 witness: the all-zero-reserve guard and the positive-TVL guarantee
evaluated on concrete pool lists. -/
theorem claim_C10_zero_tvl_guard_witness :
    analyzeChainLiquidity "eth"
      [{ name := "x", reserve := 0, dexName := "d" }] = none ∧
    (0 < (chainScoreOf "eth" wPools).tvl_usd ∧
      (1.5 : ℚ) ≤ (chainScoreOf "eth" wPools).base_score) :=
  ⟨claim_C10_zero_tvl_guard.1 "eth"
      [{ name := "x", reserve := 0, dexName := "d" }] (by decide) (by decide),
   claim_C10_zero_tvl_guard.2 "eth" wPools (chainScoreOf "eth" wPools)
      (by decide)
      (by
        unfold analyzeChainLiquidity
        rw [if_neg (by decide),
          if_neg (by decide)])⟩

/-- C3 counterexample: an oracle whose first response is a 429 and whose
second would succeed; the code issues exactly one request and degrades to
the empty pool list — it never retries. -/
theorem claim_C3_counterexample :
    oracle429 0 = HttpResponse.rateLimited ∧
    oracle429 1 = HttpResponse.success
      [{ name := "usdt/weth", reserve := 500000, dexName := "Uniswap" }] ∧
    (makeRequestModel oracle429).requestsMade = 1 ∧
    ¬2 ≤ (makeRequestModel oracle429).requestsMade ∧
    (makeRequestModel oracle429).result = none ∧
    getPoolsModel oracle429 = [] := by
  decide

/-- C3 (amended): on an HTTP 429 the request helper performs its backoff
sleep and then returns nothing without issuing a second request, so the pool
fetch degrades to the empty list; any other non-success status or transport
failure likewise degrades to the empty list, and no path raises (the model
is a total function); exactly one outbound request is ever issued. -/
theorem claim_C3_amended (respond : Nat → HttpResponse (List Pool)) :
    (respond 0 = HttpResponse.rateLimited →
      makeRequestModel respond =
        { result := none, requestsMade := 1, sleptForBackoff := true } ∧
      getPoolsModel respond = []) ∧
    (∀ c, respond 0 = HttpResponse.serverError c →
      makeRequestModel respond =
        { result := none, requestsMade := 1, sleptForBackoff := false } ∧
      getPoolsModel respond = []) ∧
    (respond 0 = HttpResponse.transportFailure →
      makeRequestModel respond =
        { result := none, requestsMade := 1, sleptForBackoff := false } ∧
      getPoolsModel respond = []) ∧
    (makeRequestModel respond).requestsMade = 1 := by
  refine ⟨?_, ?_, ?_, ?_⟩
  · intro h
    simp [makeRequestModel, getPoolsModel, h]
  · intro c h
    simp [makeRequestModel, getPoolsModel, h]
  · intro h
    simp [makeRequestModel, getPoolsModel, h]
  · unfold makeRequestModel
    cases h : respond 0 <;> rfl

/-- C3 witness: the amended degradation behavior evaluated on the 429
oracle. -/
theorem claim_C3_amended_witness :
    makeRequestModel oracle429 =
      { result := none, requestsMade := 1, sleptForBackoff := true } ∧
    getPoolsModel oracle429 = [] :=
  (claim_C3_amended oracle429).1 (by decide)

section SortLemmas

variable {α : Type} (key : α → ℚ)

theorem mem_insByKey (x z : α) (l : List α) :
    z ∈ insByKey key x l ↔ z = x ∨ z ∈ l := by
  induction l with
  | nil => simp [insByKey]
  | cons y ys ih =>
    unfold insByKey
    split_ifs with h
    · simp [List.mem_cons]
    · simp only [List.mem_cons, ih]
      tauto

theorem insByKey_perm (x : α) (l : List α) :
    (insByKey key x l).Perm (x :: l) := by
  induction l with
  | nil => exact List.Perm.refl _
  | cons y ys ih =>
    unfold insByKey
    split_ifs with h
    · exact List.Perm.refl _
    · exact (List.Perm.cons y ih).trans (List.Perm.swap x y ys)

theorem sortByKeyDesc_perm (l : List α) :
    (sortByKeyDesc key l).Perm l := by
  induction l with
  | nil => exact List.Perm.refl _
  | cons x xs ih =>
    exact (insByKey_perm key x (sortByKeyDesc key xs)).trans (List.Perm.cons x ih)

theorem mem_sortByKeyDesc (z : α) (l : List α) :
    z ∈ sortByKeyDesc key l ↔ z ∈ l :=
  (sortByKeyDesc_perm key l).mem_iff

theorem pairwise_insByKey (x : α) (l : List α)
    (h : l.Pairwise fun a b => key b ≤ key a) :
    (insByKey key x l).Pairwise fun a b => key b ≤ key a := by
  induction l with
  | nil => simp [insByKey]
  | cons y ys ih =>
    rw [List.pairwise_cons] at h
    unfold insByKey
    split_ifs with hxy
    · rw [List.pairwise_cons]
      refine ⟨?_, ?_⟩
      · intro b hb
        rcases List.mem_cons.mp hb with rfl | hb
        · exact hxy
        · exact le_trans (h.1 b hb) hxy
      · rw [List.pairwise_cons]
        exact h
    · rw [List.pairwise_cons]
      refine ⟨?_, ih h.2⟩
      intro b hb
      rcases (mem_insByKey key x b ys).mp hb with rfl | hb
      · exact (not_le.mp hxy).le
      · exact h.1 b hb

theorem pairwise_sortByKeyDesc (l : List α) :
    (sortByKeyDesc key l).Pairwise fun a b => key b ≤ key a := by
  induction l with
  | nil => simp [sortByKeyDesc]
  | cons x xs ih => exact pairwise_insByKey key x _ ih

theorem filter_insByKey (v : ℚ) (x : α) (l : List α) :
    (insByKey key x l).filter (fun a => decide (key a = v)) =
      (if key x = v then [x] else []) ++
        l.filter (fun a => decide (key a = v)) := by
  induction l with
  | nil =>
    simp only [insByKey, List.filter]
    split_ifs <;> simp_all
  | cons y ys ih =>
    unfold insByKey
    by_cases hxy : key y ≤ key x
    · rw [if_pos hxy]
      simp only [List.filter_cons]
      by_cases h1 : key x = v <;> by_cases h2 : key y = v <;> simp [h1, h2]
    · rw [if_neg hxy]
      have hlt : key x < key y := not_le.mp hxy
      simp only [List.filter_cons, ih]
      by_cases h1 : key x = v <;> by_cases h2 : key y = v
      · exact absurd (h1.trans h2.symm) (ne_of_lt hlt)
      · simp [h1, h2]
      · simp [h1, h2]
      · simp [h1, h2]

theorem filter_sortByKeyDesc (v : ℚ) (l : List α) :
    (sortByKeyDesc key l).filter (fun a => decide (key a = v)) =
      l.filter (fun a => decide (key a = v)) := by
  induction l with
  | nil => rfl
  | cons x xs ih =>
    unfold sortByKeyDesc
    rw [filter_insByKey, ih, List.filter_cons]
    split_ifs <;> simp_all

end SortLemmas

section DexLemmas

theorem addToAssoc_map_fst (l : List (String × ℚ)) (k : String) (v : ℚ) :
    (addToAssoc l k v).map Prod.fst =
      if k ∈ l.map Prod.fst then l.map Prod.fst
      else l.map Prod.fst ++ [k] := by
  induction l with
  | nil => simp [addToAssoc]
  | cons kv rest ih =>
    rcases kv with ⟨k1, v1⟩
    unfold addToAssoc
    by_cases h1 : k1 = k
    · subst h1
      simp
    · rw [if_neg h1]
      simp only [List.map_cons, ih]
      have h2 : ¬k = k1 := fun h => h1 h.symm
      by_cases h3 : k ∈ rest.map Prod.fst
      · simp [h2, h3]
      · simp [h2, h3]

theorem dexLiquidity_map_fst (pools : List Pool) :
    (dexLiquidity pools).map Prod.fst =
      firstOccurrences (pools.map fun p => p.dexName) := by
  unfold dexLiquidity firstOccurrences
  have main : ∀ (ps : List Pool) (acc : List (String × ℚ)),
      ((ps.foldl (fun a p => addToAssoc a p.dexName p.reserve) acc).map
        Prod.fst) =
      ((ps.map fun p => p.dexName).foldl
        (fun a s => if s ∈ a then a else a ++ [s]) (acc.map Prod.fst)) := by
    intro ps
    induction ps with
    | nil => intro acc; rfl
    | cons p rest ih =>
      intro acc
      rw [List.foldl_cons, List.map_cons, List.foldl_cons, ih,
        addToAssoc_map_fst]
  exact main pools []

end DexLemmas

/-- C9: the top-5 DEX list consists of the first five entries of the stable
descending sort of the per-exchange liquidity table: it is a permutation
prefix holding the five largest summed liquidities in descending order, and
exchanges with equal liquidity stay in the order of the table, which lists
exchanges in order of first appearance in the input pool list. -/
theorem claim_C9_top_dexs (pools : List Pool) :
    ((analyzeDexDiversity pools).top_dexs.map fun t => (t.name, t.liquidity_usd)) =
      (sortByKeyDesc Prod.snd (dexLiquidity pools)).take 5 ∧
    (sortByKeyDesc Prod.snd (dexLiquidity pools)).Perm (dexLiquidity pools) ∧
    (sortByKeyDesc Prod.snd (dexLiquidity pools)).Pairwise
      (fun a b => b.2 ≤ a.2) ∧
    (∀ a ∈ (sortByKeyDesc Prod.snd (dexLiquidity pools)).take 5,
      ∀ b ∈ (sortByKeyDesc Prod.snd (dexLiquidity pools)).drop 5, b.2 ≤ a.2) ∧
    (∀ v : ℚ,
      (sortByKeyDesc Prod.snd (dexLiquidity pools)).filter
        (fun kv => decide (kv.2 = v)) =
      (dexLiquidity pools).filter (fun kv => decide (kv.2 = v))) ∧
    (dexLiquidity pools).map Prod.fst =
      firstOccurrences (pools.map fun p => p.dexName) := by
  refine ⟨?_, sortByKeyDesc_perm _ _, pairwise_sortByKeyDesc _ _, ?_, ?_, ?_⟩
  · unfold analyzeDexDiversity
    dsimp only
    rw [List.map_map]
    have : ((fun t : TopDex => (t.name, t.liquidity_usd)) ∘
        fun kv : String × ℚ =>
          TopDex.mk kv.1 kv.2
            (if 0 < tvlOf pools then kv.2 / tvlOf pools * 100 else 0)) =
        fun kv : String × ℚ => kv := by
      funext kv
      rfl
    rw [this]
    simp
  · intro a ha b hb
    have hp := pairwise_sortByKeyDesc (Prod.snd (α := String) (β := ℚ))
      (dexLiquidity pools)
    rw [← List.take_append_drop 5 (sortByKeyDesc Prod.snd (dexLiquidity pools)),
      List.pairwise_append] at hp
    exact hp.2.2 a ha b hb
  · intro v
    exact filter_sortByKeyDesc Prod.snd v (dexLiquidity pools)
  · exact dexLiquidity_map_fst pools

/-- C9 witness: the ranking properties evaluated on a pool list with six
exchanges, two of which tie on liquidity. -/
theorem claim_C9_top_dexs_witness :
    ((analyzeDexDiversity
        [⟨"p1", 10, "A"⟩, ⟨"p2", 5, "X"⟩, ⟨"p3", 9, "B"⟩, ⟨"p4", 5, "Y"⟩,
         ⟨"p5", 8, "C"⟩, ⟨"p6", 7, "D"⟩]).top_dexs.map
      fun t => (t.name, t.liquidity_usd)) =
      (sortByKeyDesc Prod.snd (dexLiquidity
        [⟨"p1", 10, "A"⟩, ⟨"p2", 5, "X"⟩, ⟨"p3", 9, "B"⟩, ⟨"p4", 5, "Y"⟩,
         ⟨"p5", 8, "C"⟩, ⟨"p6", 7, "D"⟩])).take 5 ∧
    (sortByKeyDesc Prod.snd (dexLiquidity
        [⟨"p1", 10, "A"⟩, ⟨"p2", 5, "X"⟩, ⟨"p3", 9, "B"⟩, ⟨"p4", 5, "Y"⟩,
         ⟨"p5", 8, "C"⟩, ⟨"p6", 7, "D"⟩])).filter
      (fun kv => decide (kv.2 = 5)) =
      (dexLiquidity
        [⟨"p1", 10, "A"⟩, ⟨"p2", 5, "X"⟩, ⟨"p3", 9, "B"⟩, ⟨"p4", 5, "Y"⟩,
         ⟨"p5", 8, "C"⟩, ⟨"p6", 7, "D"⟩]).filter
      (fun kv => decide (kv.2 = 5)) ∧
    (5 : ℚ) ≤ 10 :=
  ⟨(claim_C9_top_dexs _).1,
   (claim_C9_top_dexs _).2.2.2.2.1 5,
   (claim_C9_top_dexs
       [⟨"p1", 10, "A"⟩, ⟨"p2", 5, "X"⟩, ⟨"p3", 9, "B"⟩, ⟨"p4", 5, "Y"⟩,
        ⟨"p5", 8, "C"⟩, ⟨"p6", 7, "D"⟩]).2.2.2.1
     ("A", 10) (by decide) ("Y", 5) (by decide)⟩


section AggregationLemmas

theorem aggregateScores_eq_some {scores : List ChainLiquidityScore}
    {e : EnhancedLiquidityData} :
    aggregateScores scores = some e ↔ scores ≠ [] ∧ e = buildEnhanced scores := by
  unfold aggregateScores
  split_ifs with h <;> simp_all [eq_comm]

theorem buildEnhanced_chain_scores (scores : List ChainLiquidityScore) :
    (buildEnhanced scores).chain_scores =
      sortByKeyDesc (fun s => s.tvl_usd) scores := rfl

theorem buildEnhanced_count (scores : List ChainLiquidityScore) :
    (buildEnhanced scores).chain_count =
      (sortByKeyDesc (fun s => s.tvl_usd) scores).length := rfl

theorem buildEnhanced_avg (scores : List ChainLiquidityScore) :
    (buildEnhanced scores).avg_score_per_chain =
      ((sortByKeyDesc (fun s => s.tvl_usd) scores).map
        fun s => s.final_score).sum /
      (((sortByKeyDesc (fun s => s.tvl_usd) scores).length : ℚ)) := rfl

theorem buildEnhanced_diversification (scores : List ChainLiquidityScore) :
    (buildEnhanced scores).diversification_good =
      (decide (3 ≤ (buildEnhanced scores).chain_count) &&
        decide ((5 : ℚ) ≤ (buildEnhanced scores).avg_score_per_chain)) := rfl

theorem buildEnhanced_global (scores : List ChainLiquidityScore) :
    (buildEnhanced scores).global_risk_score =
      (if 0 < ((sortByKeyDesc (fun s => s.tvl_usd) scores).map
          fun s => s.tvl_usd).sum then
        ((sortByKeyDesc (fun s => s.tvl_usd) scores).map
          fun s => s.final_score * (s.tvl_usd /
            ((sortByKeyDesc (fun s => s.tvl_usd) scores).map
              fun s => s.tvl_usd).sum)).sum
      else 0) := rfl

theorem sum_map_div {β : Type} (l : List β) (f : β → ℚ) (c : ℚ) :
    (l.map fun a => f a / c).sum = (l.map f).sum / c := by
  induction l with
  | nil => simp
  | cons x xs ih => simp [ih, add_div]

theorem buildEnhanced_global_bounds (scores : List ChainLiquidityScore)
    (h : ∀ s ∈ scores,
      0 ≤ s.tvl_usd ∧ 0 ≤ s.final_score ∧ s.final_score ≤ 10) :
    0 ≤ (buildEnhanced scores).global_risk_score ∧
      (buildEnhanced scores).global_risk_score ≤ 10 := by
  have hL : ∀ s ∈ sortByKeyDesc (fun s => s.tvl_usd) scores,
      0 ≤ s.tvl_usd ∧ 0 ≤ s.final_score ∧ s.final_score ≤ 10 :=
    fun s hs => h s ((mem_sortByKeyDesc _ s scores).mp hs)
  rw [buildEnhanced_global]
  by_cases hpos : 0 < ((sortByKeyDesc (fun s => s.tvl_usd) scores).map
      fun s => s.tvl_usd).sum
  · rw [if_pos hpos]
    constructor
    · apply List.sum_nonneg
      intro x hx
      rcases List.mem_map.mp hx with ⟨s, hs, rfl⟩
      exact mul_nonneg (hL s hs).2.1 (div_nonneg (hL s hs).1 hpos.le)
    · calc ((sortByKeyDesc (fun s => s.tvl_usd) scores).map
            fun s => s.final_score * (s.tvl_usd /
              ((sortByKeyDesc (fun s => s.tvl_usd) scores).map
                fun s => s.tvl_usd).sum)).sum
          ≤ ((sortByKeyDesc (fun s => s.tvl_usd) scores).map
            fun s => 10 * (s.tvl_usd /
              ((sortByKeyDesc (fun s => s.tvl_usd) scores).map
                fun s => s.tvl_usd).sum)).sum := by
            apply List.sum_le_sum
            intro s hs
            exact mul_le_mul_of_nonneg_right (hL s hs).2.2
              (div_nonneg (hL s hs).1 hpos.le)
        _ = 10 * ((sortByKeyDesc (fun s => s.tvl_usd) scores).map
            fun s => s.tvl_usd /
              ((sortByKeyDesc (fun s => s.tvl_usd) scores).map
                fun s => s.tvl_usd).sum).sum :=
            List.sum_map_mul_left _ _ _
        _ = 10 * (((sortByKeyDesc (fun s => s.tvl_usd) scores).map
            fun s => s.tvl_usd).sum /
              ((sortByKeyDesc (fun s => s.tvl_usd) scores).map
                fun s => s.tvl_usd).sum) := by
            rw [sum_map_div]
        _ = 10 := by
            rw [div_self (ne_of_gt hpos)]
            norm_num
  · rw [if_neg hpos]
    norm_num

theorem mem_collectScores {nrs : List (String × Except String (List Pool))}
    {s : ChainLiquidityScore} (hs : s ∈ collectScores nrs) :
    ∃ x, x ∈ nrs ∧ ∃ ps, x.2 = Except.ok ps ∧ ps ≠ [] ∧
      analyzeChainLiquidity x.1 ps = some s := by
  unfold collectScores at hs
  rcases List.mem_filterMap.mp hs with ⟨x, hx, hfx⟩
  refine ⟨x, hx, ?_⟩
  unfold chainOutcomeScore at hfx
  cases hps : x.2 with
  | error err =>
    rw [hps] at hfx
    exact absurd hfx (by simp)
  | ok ps =>
    rw [hps] at hfx
    exact ⟨ps, rfl, (analyzeChain_eq_some.mp hfx).1, hfx⟩

/-- Hypothesis that every successfully fetched pool list carries only
non-negative reserves, as the data model requires of `reserve_in_usd`. -/
def okNonnegReserves (nrs : List (String × Except String (List Pool))) : Prop :=
  ∀ x ∈ nrs, ∀ ps, x.2 = Except.ok ps → ∀ p ∈ ps, 0 ≤ p.reserve

theorem collectScores_bounds {nrs : List (String × Except String (List Pool))}
    (hok : okNonnegReserves nrs) :
    ∀ s ∈ collectScores nrs,
      0 ≤ s.tvl_usd ∧ 0 ≤ s.final_score ∧ s.final_score ≤ 10 := by
  intro s hs
  rcases mem_collectScores hs with ⟨x, hx, ps, hps, hne, hsome⟩
  rcases analyzeChain_eq_some.mp hsome with ⟨-, -, rfl⟩
  refine ⟨?_, chainScoreOf_final_bounds x.1 ps⟩
  rw [chainScoreOf_tvl]
  exact tvlOf_nonneg (hok x hx ps hps)

end AggregationLemmas

/-- C7: the aggregator returns an absence value when no network yields a
usable score; a network whose fetch raised or whose pool list is empty is
excluded from the result, and every score in `chain_scores` stems from a
successfully fetched, non-empty pool list; a lone network with zero pools
makes the whole call return nothing. -/
theorem claim_C7_aggregation_absence :
    (∀ nrs : List (String × Except String (List Pool)),
      (∀ x ∈ nrs, chainOutcomeScore x = none) →
      getComprehensiveLiquidityAnalysis nrs = none) ∧
    (∀ n : String,
      getComprehensiveLiquidityAnalysis [(n, Except.ok [])] = none) ∧
    (∀ (nrs : List (String × Except String (List Pool)))
      (e : EnhancedLiquidityData) (s : ChainLiquidityScore),
      getComprehensiveLiquidityAnalysis nrs = some e →
      s ∈ e.chain_scores →
      ∃ x, x ∈ nrs ∧ ∃ ps, x.2 = Except.ok ps ∧ ps ≠ [] ∧
        analyzeChainLiquidity x.1 ps = some s) := by
  refine ⟨?_, ?_, ?_⟩
  · intro nrs h
    unfold getComprehensiveLiquidityAnalysis collectScores
    rw [List.filterMap_eq_nil_iff.mpr h]
    rfl
  · intro n
    simp [getComprehensiveLiquidityAnalysis, collectScores,
      chainOutcomeScore, analyzeChainLiquidity, aggregateScores]
  · intro nrs e s hsome hmem
    unfold getComprehensiveLiquidityAnalysis at hsome
    rcases aggregateScores_eq_some.mp hsome with ⟨-, rfl⟩
    rw [buildEnhanced_chain_scores] at hmem
    exact mem_collectScores ((mem_sortByKeyDesc _ s _).mp hmem)

/-- C7 witness: absence on an all-failing batch and on a single network
with zero pools, and provenance of a concrete collected score. -/
theorem claim_C7_aggregation_absence_witness :
    getComprehensiveLiquidityAnalysis [("eth", Except.error "boom")] = none ∧
    getComprehensiveLiquidityAnalysis [("bsc", Except.ok [])] = none :=
  ⟨claim_C7_aggregation_absence.1 [("eth", Except.error "boom")] (by decide),
   claim_C7_aggregation_absence.2.1 "bsc"⟩

/-- C1: every produced per-network score has final score equal to the
clamped sum of base score and adjustments, lying in [0, 10]; and, for pool
data with non-negative reserves, the aggregated global risk score also lies
in [0, 10]. -/
theorem claim_C1_score_bounds :
    (∀ (n : String) (ps : List Pool) (s : ChainLiquidityScore),
      analyzeChainLiquidity n ps = some s →
      s.final_score = max 0 (min 10 (s.base_score + sumAdj s.adjustments)) ∧
      0 ≤ s.final_score ∧ s.final_score ≤ 10) ∧
    (∀ (nrs : List (String × Except String (List Pool)))
      (e : EnhancedLiquidityData),
      okNonnegReserves nrs →
      getComprehensiveLiquidityAnalysis nrs = some e →
      0 ≤ e.global_risk_score ∧ e.global_risk_score ≤ 10) := by
  constructor
  · intro n ps s hsome
    rcases analyzeChain_eq_some.mp hsome with ⟨-, -, rfl⟩
    exact ⟨chainScoreOf_final n ps, chainScoreOf_final_bounds n ps⟩
  · intro nrs e hok hsome
    unfold getComprehensiveLiquidityAnalysis at hsome
    rcases aggregateScores_eq_some.mp hsome with ⟨-, rfl⟩
    exact buildEnhanced_global_bounds _ (collectScores_bounds hok)

/-- C1 witness: the clamp identity and bounds evaluated on a concrete
network and a concrete aggregation. -/
theorem claim_C1_score_bounds_witness :
    ((chainScoreOf "eth" wPools).final_score =
      max 0 (min 10 ((chainScoreOf "eth" wPools).base_score +
        sumAdj (chainScoreOf "eth" wPools).adjustments)) ∧
      0 ≤ (chainScoreOf "eth" wPools).final_score ∧
      (chainScoreOf "eth" wPools).final_score ≤ 10) ∧
    (0 ≤ (buildEnhanced (collectScores wNrs)).global_risk_score ∧
      (buildEnhanced (collectScores wNrs)).global_risk_score ≤ 10) := by
  refine ⟨claim_C1_score_bounds.1 "eth" wPools (chainScoreOf "eth" wPools) ?_,
    claim_C1_score_bounds.2 wNrs (buildEnhanced (collectScores wNrs)) ?_ ?_⟩
  · unfold analyzeChainLiquidity
    rw [if_neg (by decide), if_neg (by decide)]
  · intro x hx ps hps p hp
    simp only [wNrs, List.mem_singleton] at hx
    subst hx
    simp only [wPools] at hps
    cases hps
    simp only [wPools, List.mem_singleton] at hp
    subst hp
    norm_num
  · unfold getComprehensiveLiquidityAnalysis aggregateScores
    rw [if_neg (by decide)]

/-- C8: the global risk score is the TVL-weighted mean of the per-network
final scores (0 when total TVL is 0), the returned chain scores are sorted
descending by TVL, diversification-good holds exactly when at least three
networks score at least 5.0 on unweighted average; and three equal-TVL
networks scoring 9, 6 and 3 yield mean 6, global score 6 and a good
diversification flag. -/
theorem claim_C8_global_aggregation :
    (∀ (scores : List ChainLiquidityScore) (e : EnhancedLiquidityData),
      aggregateScores scores = some e →
      e.global_risk_score =
        (if 0 < (e.chain_scores.map fun s => s.tvl_usd).sum then
          (e.chain_scores.map fun s => s.final_score * s.tvl_usd).sum /
            (e.chain_scores.map fun s => s.tvl_usd).sum
        else 0) ∧
      e.chain_scores.Pairwise (fun a b => b.tvl_usd ≤ a.tvl_usd) ∧
      (e.diversification_good = true ↔
        3 ≤ e.chain_count ∧ (5 : ℚ) ≤ e.avg_score_per_chain)) ∧
    ((aggregateScores [plainScore 1000000 9, plainScore 1000000 6,
        plainScore 1000000 3]).map fun e =>
      (e.avg_score_per_chain, e.global_risk_score, e.diversification_good)) =
      some (6, 6, true) := by
  constructor
  · intro scores e hsome
    rcases aggregateScores_eq_some.mp hsome with ⟨-, rfl⟩
    refine ⟨?_, ?_, ?_⟩
    · rw [buildEnhanced_global, buildEnhanced_chain_scores]
      by_cases hpos : 0 < ((sortByKeyDesc (fun s => s.tvl_usd) scores).map
          fun s => s.tvl_usd).sum
      · rw [if_pos hpos, if_pos hpos]
        have hfun : (fun s : ChainLiquidityScore => s.final_score *
            (s.tvl_usd / ((sortByKeyDesc (fun s => s.tvl_usd) scores).map
              fun s => s.tvl_usd).sum)) =
            fun s : ChainLiquidityScore => (s.final_score * s.tvl_usd) /
              ((sortByKeyDesc (fun s => s.tvl_usd) scores).map
                fun s => s.tvl_usd).sum := by
          funext s
          rw [mul_div_assoc]
        rw [hfun, sum_map_div]
      · rw [if_neg hpos, if_neg hpos]
    · rw [buildEnhanced_chain_scores]
      exact pairwise_sortByKeyDesc _ scores
    · rw [buildEnhanced_diversification]
      simp [Bool.and_eq_true, decide_eq_true_eq]
  · decide

/-- C8 witness: the aggregation identities evaluated on a singleton score
list. -/
theorem claim_C8_global_aggregation_witness :
    ((buildEnhanced [plainScore 100 7]).global_risk_score =
      (if 0 < ((buildEnhanced [plainScore 100 7]).chain_scores.map
          fun s => s.tvl_usd).sum then
        ((buildEnhanced [plainScore 100 7]).chain_scores.map
          fun s => s.final_score * s.tvl_usd).sum /
          ((buildEnhanced [plainScore 100 7]).chain_scores.map
            fun s => s.tvl_usd).sum
      else 0) ∧
      (buildEnhanced [plainScore 100 7]).chain_scores.Pairwise
        (fun a b => b.tvl_usd ≤ a.tvl_usd) ∧
      ((buildEnhanced [plainScore 100 7]).diversification_good = true ↔
        3 ≤ (buildEnhanced [plainScore 100 7]).chain_count ∧
        (5 : ℚ) ≤ (buildEnhanced [plainScore 100 7]).avg_score_per_chain)) :=
  claim_C8_global_aggregation.1 [plainScore 100 7]
    (buildEnhanced [plainScore 100 7]) rfl


end StableRisk
